import Mathlib

/-!
Verification of the resolution core of `async_dns` (files
`async_dns/resolver/base.py` and `async_dns/resolver/query.py`).

The Python code is shallowly embedded:
* DNS records and messages become the structures `Rec` and `Msg`;
  the `data` payload of a record is a string, and the `mname` field of an
  SOA payload (`rec.data.mname` in Python) is flattened into the record as
  the field `mname`.
* dictionaries become association lists with dict-style update
  (`assocUpsert`) and `dict.pop(key, None)` (`assocErase`);
* `await`-ed collaborators (the cache, the transports, the recursive
  resolver entry point) become oracle functions supplied as parameters;
* Python exceptions become the `Err` sum type, fallible code returns
  `Except Err`;
* the cooperative single-threaded scheduler of `asyncio` is modelled, for
  `BaseResolver.query`, as a transition system whose atomic steps are the
  suspension-free sections of the source (a call arriving at the dedup
  ledger; a task completing and running its done-callback).
-/

namespace AsyncDns

/-- Python `str.endswith`: suffix test on the character sequence. -/
def pyEndsWith (s suffix : String) : Bool := suffix.data.isSuffixOf s.data

-- Record type constants from `async_dns.core.types` (standard DNS values).
namespace types

def A : Nat := 1

def NS : Nat := 2

def CNAME : Nat := 5

def SOA : Nat := 6

def AAAA : Nat := 28

end types

/-- A DNS record (`async_dns.core.Record`).  `data` is the payload (an IP,
a CNAME target or an NS host name); for SOA records the primary-server
field of the payload (`rec.data.mname` in the source) is flattened into
the separate field `mname`. -/
structure Rec where
  name : String
  qtype : Nat := 0
  data : String := ""
  mname : String := ""
  ttl : Int := 0
deriving DecidableEq

/-- A DNS message (`async_dns.core.DNSMessage`): question, answer,
authority and additional sections plus the `aa` flag and result code `r`. -/
structure Msg where
  qd : List Rec := []
  an : List Rec := []
  ns : List Rec := []
  ar : List Rec := []
  aa : Nat := 0
  r : Nat := 0
deriving DecidableEq

/-- Python exceptions appearing in the embedded code. -/
inductive Err where
  | dns (code : Int) (text : String)
  | timeoutE
  | assertE (text : String)
  | invalidNameServer
  | unboundLocal (varName : String)
  | indexE
  | invalidState
  | other (n : Nat)
deriving DecidableEq

/-! ### Association-list primitives (Python `dict`) -/

/-- `d.get(k)` / `d.get(k, None)` on a dict modelled as an association list
(first entry for a key wins, matching `assocUpsert` which prepends). -/
def assocFind {α β : Type} [DecidableEq α] : List (α × β) → α → Option β
  | [], _ => none
  | p :: rest, k => if p.1 = k then some p.2 else assocFind rest k

/-- `d.pop(k, None)`: remove the entry at key `k` if present. -/
def assocErase {α β : Type} [DecidableEq α] : List (α × β) → α → List (α × β)
  | [], _ => []
  | p :: rest, k => if p.1 = k then assocErase rest k else p :: assocErase rest k

/-- `d[k] = v`: dict assignment (replaces any previous entry at `k`). -/
def assocUpsert {α β : Type} [DecidableEq α] (m : List (α × β)) (k : α) (v : β) :
    List (α × β) :=
  (k, v) :: assocErase m k

/-! ### `Query.request_remote` (query.py lines 145-163)

The nameserver set is modelled by the list `gets` of the successive
results of `nameservers.get()` (the list running out means `get()`
returned a falsy value), and the wire exchange
`request_once` + `DNSMessage.parse` by the oracle `resp`.  The returned
list collects the addresses passed to `nameservers.fail`, in order. -/

/-- Outcome of `await self.request_once(req, addr)` followed by
`DNSMessage.parse(data)` for one address. -/
inductive WireOutcome where
  | timeout
  | unparsable (code : Int) (text : String)
  | reply (m : Msg)
deriving DecidableEq

/-- `Query.request_remote`.  `cancelled` is the (constant) value of
`self.future.cancelled()`; `qdname` is `req.qd[0].name`.  Mirrors the
source loop:
* `get()` exhausted: raise `InvalidNameServer`;
* `asyncio.TimeoutError` or the `assert inter_res.r != 2` failure:
  `nameservers.fail(addr)` and continue;
* a `DNSError` (either from `DNSMessage.parse` or from the question-name
  mismatch check) is caught by the `except DNSError:` branch, whose
  `logger.debug('...', e)` reads the local variable `e` that is unbound in
  that branch, so the branch raises `UnboundLocalError`;
* `inter_res.qd[0]` on an empty question section raises `IndexError`,
  which no handler catches;
* otherwise the parsed reply is returned. -/
def request_remote (cancelled : Bool) (qdname : String)
    (resp : String → WireOutcome) : List String →
    Except Err (Option Msg) × List String
  | [] =>
    if cancelled then (.ok none, [])
    else (.error .invalidNameServer, [])
  | addr :: rest =>
    if cancelled then (.ok none, [])
    else
      match resp addr with
      | .timeout =>
        -- except (asyncio.TimeoutError, AssertionError) as e: nameservers.fail(addr)
        let out := request_remote cancelled qdname resp rest
        (out.1, addr :: out.2)
      | .unparsable _ _ =>
        -- DNSMessage.parse raised DNSError; except DNSError: logger.debug(..., e)
        -- with e unbound in this branch.
        (.error (.unboundLocal "e"), [])
      | .reply m =>
        match m.qd with
        | [] => (.error .indexE, [])
        | q :: _ =>
          if ¬ q.name = qdname then
            -- raise DNSError(-1, 'Question section mismatch'), caught by
            -- the except DNSError: branch with its unbound e.
            (.error (.unboundLocal "e"), [])
          else if m.r = 2 then
            -- assert inter_res.r != 2 fails; fail(addr) and continue.
            let out := request_remote cancelled qdname resp rest
            (out.1, addr :: out.2)
          else
            (.ok (some m), [])

/-! ### `BaseResolver.query` (base.py lines 22-34)

`request_cache` maps a key `(fqdn, qtype, addr)` to the in-flight
`asyncio.Task` for that key.  Under asyncio's cooperative single-threaded
scheduling the body of `query` up to `await task` runs atomically, and a
task's completion together with its done-callback
`lambda x: self.request_cache.pop(key, None)` runs atomically before any
waiter resumes (callbacks run in the order they were added, and the pop
callback is added before any waiter attaches).  The model therefore has
two atomic events:

* `arrive c k` — caller `c` enters `query` for key `k`: if the ledger
  holds a task, the caller just awaits it; otherwise a fresh task is
  created (`asyncio.ensure_future(self._query(...))`, counted by
  `transport`), registered in the ledger, and awaited;
* `complete t v` — the in-flight task `t` finishes with value `v` and its
  done-callback pops the ledger entry at the key captured at creation.
-/

-- The dedup key `(fqdn, qtype, addr)` of base.py line 28.
abbrev DKey := String × Nat × String

-- The settled value of a `_query` task (raw response payload).
abbrev RRes := Nat

/-- State of the request-deduplication layer. -/
structure LedgerSt where
  /-- `self.request_cache`: key to in-flight task id. -/
  ledger : List (DKey × Nat) := []
  /-- Next fresh task id; ids `< nextTask` have been created. -/
  nextTask : Nat := 0
  /-- The key captured by each created task's done-callback. -/
  taskKey : Nat → DKey := fun _ => ("", 0, "")
  /-- The settled value of each task, `none` while still pending. -/
  settledTask : Nat → Option RRes := fun _ => none
  /-- Which task each caller awaits. -/
  waiters : List (Nat × Nat) := []
  /-- How many times `_query` (one transport exchange) was started per key. -/
  transport : DKey → Nat := fun _ => 0

/-- The two atomic events of the dedup layer. -/
inductive REvent where
  | arrive (c : Nat) (k : DKey)
  | complete (t : Nat) (v : RRes)

/-- One atomic step of the dedup layer (see the section comment).  A
`complete` event for a task that does not exist or has already settled is
a no-op (asyncio settles a task exactly once). -/
def rstep (s : LedgerSt) : REvent → LedgerSt
  | .arrive c k =>
    match assocFind s.ledger k with
    | some t =>
      -- task = self.request_cache.get(key) found: just await it.
      { s with waiters := (c, t) :: s.waiters }
    | none =>
      -- create the task, register the done-callback key, store it.
      let t := s.nextTask
      { s with
        ledger := assocUpsert s.ledger k t
        nextTask := t + 1
        taskKey := fun t' => if t' = t then k else s.taskKey t'
        transport := fun k' => if k' = k then s.transport k + 1 else s.transport k'
        waiters := (c, t) :: s.waiters }
  | .complete t v =>
    if t < s.nextTask ∧ s.settledTask t = none then
      { s with
        settledTask := fun t' => if t' = t then some v else s.settledTask t'
        -- done-callback: self.request_cache.pop(key, None)
        ledger := assocErase s.ledger (s.taskKey t) }
    else s

/-- Run the dedup layer from a given state over a list of events. -/
def runRFrom (s : LedgerSt) (es : List REvent) : LedgerSt := es.foldl rstep s

/-- Run the dedup layer from the initial (empty) state. -/
def runR (es : List REvent) : LedgerSt := runRFrom {} es

/-- Invariant of the dedup layer: ledger keys are distinct, every ledger
entry points at a pending (in-flight) task whose recorded key is the
entry's key, and task ids at or above `nextTask` are unused. -/
def InvR (s : LedgerSt) : Prop :=
  (s.ledger.map Prod.fst).Nodup
  ∧ (∀ p ∈ s.ledger, s.taskKey p.2 = p.1 ∧ s.settledTask p.2 = none ∧ p.2 < s.nextTask)
  ∧ (∀ t, s.nextTask ≤ t → s.settledTask t = none)

/-! ### `Query.query` (query.py lines 22-42)

The loop body's two awaited calls (`self.query_cache(domain)` and
`self.query_remote(domain, nameservers)`) are oracles in `QEnv`; either
may raise (`Except.error`).  `self.future` is the four-state `Fut`;
`self.future.cancelled()` is modelled as a constant per run — the claims
concern a future that is already cancelled (it stays cancelled) or one
that is never cancelled. -/

/-- An `asyncio.Future` as used by `Query`. -/
inductive Fut where
  | pending
  | cancelledF
  | resolvedF (v : Msg × Bool)
  | rejectedF (e : Err)
deriving DecidableEq

/-- `self.future.cancelled()`. -/
def futCancelled : Fut → Bool
  | .cancelledF => true
  | _ => false

/-- `future.set_result(v)`: raises `InvalidStateError` unless pending. -/
def setResult (f : Fut) (v : Msg × Bool) : Except Err Fut :=
  match f with
  | .pending => .ok (.resolvedF v)
  | _ => .error .invalidState

/-- `future.set_exception(e)`: raises `InvalidStateError` unless pending. -/
def setException (f : Fut) (e : Err) : Except Err Fut :=
  match f with
  | .pending => .ok (.rejectedF e)
  | _ => .error .invalidState

/-- Mutable locals of the `Query.query` loop, plus counters of how many
times each awaited collaborator has been invoked. -/
structure LoopSt where
  domain : String
  nameservers : Option (List String) := none
  fromCache : Bool := false
  res : Msg := {}
  cacheCalls : Nat := 0
  remoteCalls : Nat := 0
deriving DecidableEq

/-- Oracles for the two awaited calls of the loop body. -/
structure QEnv where
  /-- `await self.query_cache(domain)`: new accumulated message and hit flag. -/
  cacheStep : String → Msg → Except Err (Msg × Bool)
  /-- `await self.query_remote(domain, nameservers)`: new accumulated
  message and `None` (terminal) or the next `(domain, nameservers)`. -/
  remoteStep : String → Option (List String) → Msg →
    Except Err (Msg × Option (String × Option (List String)))

/-- One iteration of the `while True:` body.  `.inl st` means the loop
continues with state `st`; `.inr st` means a `break` was reached. -/
def loopIter (env : QEnv) (cancelled : Bool) (st : LoopSt) :
    Except Err (LoopSt ⊕ LoopSt) :=
  if cancelled then
    -- both `if not self.future.cancelled():` guards skip their bodies and
    -- the `while True:` loop continues unchanged.
    .ok (.inl st)
  else
    match env.cacheStep st.domain st.res with
    | .error e => .error e
    | .ok (m, hit) =>
      let st := { st with res := m, fromCache := hit, cacheCalls := st.cacheCalls + 1 }
      if hit then .ok (.inr st)
      else
        match env.remoteStep st.domain st.nameservers st.res with
        | .error e => .error e
        | .ok (m2, next) =>
          let st := { st with res := m2, remoteCalls := st.remoteCalls + 1 }
          match next with
          | none => .ok (.inr st)
          | some (d, nss) => .ok (.inl { st with domain := d, nameservers := nss })

/-- The `while True:` loop, with fuel; `none` means the loop has not
exited after `fuel` iterations (for the cancelled case: never exits). -/
def loopRun (env : QEnv) (cancelled : Bool) : Nat → LoopSt →
    Option (Except Err LoopSt)
  | 0, _ => none
  | fuel + 1, st =>
    match loopIter env cancelled st with
    | .error e => some (.error e)
    | .ok (.inr st') => some (.ok st')
    | .ok (.inl st') => loopRun env cancelled fuel st'

/-- The whole `Query.query` coroutine: run the loop under
`try/except Exception`, then settle the future unless it is cancelled.
`none` means the coroutine never returns; `some (.error e)` means an
exception propagates out of `query`; `some (.ok f)` means `query` returns
with the future in state `f`. -/
def queryMeth (env : QEnv) (fut : Fut) (fuel : Nat) (st : LoopSt) :
    Option (Except Err Fut) :=
  let cancelled := futCancelled fut
  match loopRun env cancelled fuel st with
  | none => none
  | some out =>
    if cancelled then some (.ok fut)
    else
      match out with
      | .error e => some (setException fut e)
      | .ok st' => some (setResult fut (st'.res, st'.fromCache))

/-! ### `Query.query_cache` (query.py lines 44-88)

`cache.query(name, qtypes)` (the cache may be asked for one qtype or the
pair `A_TYPES = (A, AAAA)`) and the recursive `resolver.query(name, qtype)`
of the CNAME branch are oracles in `CacheEnv`. -/

/-- Oracles and configuration consumed by `query_cache`. -/
structure CacheEnv where
  /-- `cache.query(name, qtypes)` as a list of records. -/
  cq : String → List Nat → List Rec
  /-- `await resolver.query(name, qtype)` (top-level resolver entry
  point); `none` models a `None` result. -/
  rq : String → Nat → Option Msg
  /-- `resolver.rootdomains`. -/
  rootdomains : List String

/-- The scan of `cache.query(domain, self.qtype)` (query.py lines 66-78):
folds over the cached records, extending the accumulated message and the
`cache_hit` flag. -/
def cacheScan (env : CacheEnv) (qtype : Nat) (result : Msg) (domain : String) :
    Msg × Bool :=
  (env.cq domain [qtype]).foldl
    (fun (p : Msg × Bool) rec =>
      if rec.qtype = types.NS then
        -- NS match: only used when A/AAAA glue for the NS host is cached.
        let inter_res := env.cq rec.data [types.A, types.AAAA]
        if ¬ inter_res = [] then
          ({ p.1 with ar := p.1.ar ++ inter_res, ns := p.1.ns ++ [rec] },
           p.2 || decide (rec.qtype = qtype))
        else p
      else
        ({ p.1 with an := p.1.an ++ [{ rec with name := domain }] },
         p.2 || decide (qtype = types.CNAME ∨ ¬ rec.qtype = types.CNAME)))
    (result, false)

/-- `Query.query_cache` returning the accumulated message (the mutated
`self._result`) and the hit flag. -/
def query_cache (env : CacheEnv) (qtype : Nat) (result : Msg) (domain : String) :
    Msg × Bool :=
  let cname := env.cq domain [types.CNAME]
  if ¬ cname = [] then
    -- cached CNAME branch (lines 51-64)
    let result :=
      { result with an := result.an ++ cname.map (fun rec => { rec with name := domain }) }
    let result := if cname.all (fun rec => rec.ttl < 0) then { result with aa := 1 } else result
    if qtype = types.CNAME then (result, true)
    else
      let result := cname.foldl
        (fun res rec =>
          match env.rq rec.data qtype with
          | none => res
          | some inter_res =>
            if inter_res.r > 0 then res
            else { res with an := res.an ++ inter_res.an, ns := inter_res.ns, ar := inter_res.ar })
        result
      (result, true)
  else
    -- scan branch (lines 66-78) followed by the root-domain block (79-87)
    let scanned := cacheScan env qtype result domain
    if env.rootdomains.any (fun root => pyEndsWith domain root) then
      if ¬ scanned.2 then ({ scanned.1 with r := 3, aa := 1 }, true)
      else ({ scanned.1 with aa := 1 }, scanned.2)
    else scanned

/-! ### `Query.query_remote` (query.py lines 90-132)

`query_remote` awaits one remote exchange (`query_remote_once`) and then
classifies the response; the classification (lines 94-132, everything
after `inter_res` is obtained) is pure and embedded as
`query_remote_classify`.  The result's second component is `none` for a
terminal answer, or `some (domain, nameservers)` for the next hop, where
`nameservers = none` re-queries the resolver defaults and
`nameservers = some ips` is `NameServers(nsips)`. -/

/-- The answer-section scan (lines 98-103): returns the extended message,
the collected CNAME targets, and the `has_result` flag. -/
def anScan (qtype : Nat) (result : Msg) (irAn : List Rec) :
    Msg × List String × Bool :=
  irAn.foldl
    (fun (p : Msg × List String × Bool) rec =>
      ({ p.1 with an := p.1.an ++ [rec] },
       (if rec.qtype = types.CNAME then p.2.1 ++ [rec.data] else p.2.1),
       p.2.2 || decide (qtype = types.CNAME ∨ ¬ rec.qtype = types.CNAME)))
    (result, [], false)

/-- The authority-section scan (lines 104-110): returns the extended
message, the updated `has_result` flag and the `has_ns` flag. -/
def nsScan (recursive : Bool) (qtype : Nat) (result : Msg) (hasResult : Bool)
    (irNs : List Rec) : Msg × Bool × Bool :=
  irNs.foldl
    (fun (p : Msg × Bool × Bool) rec =>
      let res := if ¬ recursive then { p.1 with ns := p.1.ns ++ [rec] } else p.1
      if rec.qtype = types.SOA ∨ qtype = types.NS then (res, true, p.2.2)
      else (res, p.2.1, true))
    (result, hasResult, false)

/-- The `nsip_map` of lines 123-125: a dict from `(rec.name, rec.qtype)`
to `rec.data` over the additional section. -/
def nsipMapOf (irAr : List Rec) : List ((String × Nat) × String) :=
  irAr.foldl (fun m rec => assocUpsert m (rec.name, rec.qtype) rec.data) []

/-- `host = rec.data.mname if rec.qtype == types.SOA else rec.data`
(line 128; the SOA payload's `mname` is the flattened field). -/
def hostOf (rec : Rec) : String :=
  if rec.qtype = types.SOA then rec.mname else rec.data

/-- The `nsips` list of lines 126-131: for each authority record whose
host has an entry under qtype `A` in `nsip_map`, collect that address. -/
def nsipsOf (irAr irNs : List Rec) : List String :=
  irNs.foldl
    (fun acc rec =>
      match assocFind (nsipMapOf irAr) (hostOf rec, types.A) with
      | some ip => acc ++ [ip]
      | none => acc)
    []

/-- `Query.query_remote`, lines 94-132: classification of the parsed
response `ir` of the remote exchange. -/
def query_remote_classify (recursive : Bool) (qtype : Nat) (result : Msg)
    (domain : String) (ir : Msg) :
    Msg × Option (String × Option (List String)) :=
  let a := anScan qtype result ir.an
  let cname := a.2.1
  let b := nsScan recursive qtype a.1 a.2.2 ir.ns
  let has_result := b.2.1
  let has_ns := b.2.2
  let result := if ¬ recursive then { b.1 with ar := b.1.ar ++ ir.ar } else b.1
  if has_result then (result, none)
  else
    match cname with
    | c :: _ => (result, some (c, none))
    | [] =>
      if ¬ recursive then ({ result with r := ir.r }, none)
      else if ¬ has_ns then ({ result with r := 2 }, none)
      else (result, some (domain, some (nsipsOf ir.ar ir.ns)))

/-! ### Concrete fixtures used by witnesses and counterexamples -/

/-- A well-formed reply for `host.example` with an A answer. -/
def goodReply : Msg :=
  { qd := [{ name := "host.example", qtype := types.A }],
    an := [{ name := "host.example", qtype := types.A, data := "1.2.3.4" }] }

/-- First nameserver answers with a mismatching question name, the second
would answer correctly. -/
def respMismatch : String → WireOutcome := fun addr =>
  if addr = "10.0.0.1" then .reply { qd := [{ name := "wrong.example", qtype := types.A }] }
  else .reply goodReply

/-- Every nameserver times out. -/
def respAllTimeout : String → WireOutcome := fun _ => .timeout

/-- First nameserver returns bytes that fail DNS parsing, the second would
answer correctly. -/
def respUnparsable : String → WireOutcome := fun addr =>
  if addr = "10.0.0.1" then .unparsable (-1) "malformed response" else .reply goodReply

/-- Loop environment whose cache step always hits. -/
def envHit : QEnv :=
  { cacheStep := fun _ m => .ok (m, true),
    remoteStep := fun _ _ m => .ok (m, none) }

/-- Initial loop state for the fixtures. -/
def st0 : LoopSt := { domain := "host.example" }

/-- The state `envHit` reaches when the first cache step hits. -/
def stHit : LoopSt := { st0 with fromCache := true, cacheCalls := 1 }

/-- A resolver environment with an empty cache and local root domain `lan`. -/
def envEmptyCache : CacheEnv :=
  { cq := fun _ _ => [], rq := fun _ _ => none, rootdomains := ["lan"] }

/-- Cache holding one positive-ttl CNAME record for `a.lan`. -/
def cqCnameLan : String → List Nat → List Rec := fun d ts =>
  if d = "a.lan" ∧ ts = [types.CNAME] then
    [{ name := "a.lan", qtype := types.CNAME, data := "b.example", ttl := 300 }]
  else []

/-- Resolver environment for the cached-CNAME-under-root-domain scenario. -/
def envCnameLan : CacheEnv :=
  { cq := cqCnameLan, rq := fun _ _ => none, rootdomains := ["lan"] }

/-- Cache holding one A record for `host.lan`. -/
def cqHitA : String → List Nat → List Rec := fun d ts =>
  if d = "host.lan" ∧ ts = [types.A] then
    [{ name := "host.lan", qtype := types.A, data := "127.0.0.2", ttl := 60 }]
  else []

/-- Resolver environment with a genuine cached A answer under root `lan`. -/
def envHitA : CacheEnv :=
  { cq := cqHitA, rq := fun _ _ => none, rootdomains := ["lan"] }

/-- A remote response whose only answer record is a CNAME. -/
def irCname : Msg :=
  { an := [{ name := "a.example", qtype := types.CNAME, data := "b.example" }] }

/-- A delegation response: two NS hosts, one with A glue, one with only
AAAA glue. -/
def irDeleg : Msg :=
  { ns := [{ name := "tld", qtype := types.NS, data := "ns1.tld" },
           { name := "tld", qtype := types.NS, data := "ns2.tld" }],
    ar := [{ name := "ns1.tld", qtype := types.A, data := "192.0.2.1" },
           { name := "ns2.tld", qtype := types.AAAA, data := "2001:db8::1" }] }

/-- A concrete dedup key. -/
def key0 : DKey := ("example.com", 1, "udp:8.8.8.8")

/-! ## Theorems -/

/-- C2: once the future is cancelled, each iteration of the `Query.query`
loop issues no cache or remote query and leaves the state unchanged
(first conjunct), so the `while True:` loop never exits, the coroutine
never returns and the future is never settled (second conjunct): the loop
does not terminate, contrary to the claim that it stops cleanly. -/
theorem query_cancelled_spins (env : QEnv) (fuel : Nat) (st : LoopSt) :
    loopIter env true st = .ok (.inl st)
    ∧ queryMeth env .cancelledF fuel st = none := by
  have hrun : ∀ f s, loopRun env true f s = none := by
    intro f
    induction f with
    | zero => intro s; rfl
    | succ n ih => intro s; simpa [loopRun, loopIter] using ih s
  exact ⟨rfl, by simp [queryMeth, futCancelled, hrun]⟩

/-- C5: if the future is pending (not cancelled) and the loop exits after
`fuel` iterations with outcome `out`, then `Query.query` returns normally
(no exception escapes) and the future ends rejected with the loop body's
exception, or resolved with the accumulated message and cache-hit flag. -/
theorem query_settles_future (env : QEnv) (fuel : Nat) (st : LoopSt)
    (out : Except Err LoopSt)
    (h : loopRun env false fuel st = some out) :
    queryMeth env .pending fuel st =
      some (.ok (match out with
        | .error e => .rejectedF e
        | .ok st' => .resolvedF (st'.res, st'.fromCache))) := by
  cases out <;> simp [queryMeth, futCancelled, h, setException, setResult]

/-- Witness for C5: an environment whose first cache step hits settles the
future with the accumulated message and `from_cache = true`. -/
theorem query_settles_future_w :
    loopRun envHit false 1 st0 = some (.ok stHit)
    ∧ queryMeth envHit .pending 1 st0 = some (.ok (.resolvedF (stHit.res, true))) :=
  ⟨rfl, query_settles_future envHit 1 st0 (.ok stHit) rfl⟩

/-- C3 counterexample: with the first nameserver replying with a
mismatching question name, `request_remote` neither marks that address
failed (the fail log is empty, not `["10.0.0.1"]`) nor tries the next
candidate; it escalates an `UnboundLocalError` from the `except DNSError:`
branch, which is not the `InvalidNameServer` exhaustion error the claim
allows. -/
theorem request_remote_mismatch_counterexample :
    request_remote false "host.example" respMismatch ["10.0.0.1", "10.0.0.2"]
      = (.error (.unboundLocal "e"), [])
    ∧ ¬ (Err.unboundLocal "e" = Err.invalidNameServer)
    ∧ ¬ (([] : List String) = ["10.0.0.1"]) :=
  ⟨rfl, by decide, by decide⟩

/-- C3 (amended): when every candidate address either times out or
replies (with a matching question name) with result code 2, each address
is marked failed in order and the retry loop escalates only as
`InvalidNameServer` once `get()` is exhausted. -/
theorem request_remote_failover (qdname : String) (resp : String → WireOutcome)
    (gets : List String)
    (h : ∀ addr ∈ gets, resp addr = .timeout ∨
        ∃ m, resp addr = .reply m
          ∧ (∃ q qs, m.qd = q :: qs ∧ q.name = qdname) ∧ m.r = 2) :
    request_remote false qdname resp gets = (.error .invalidNameServer, gets) := by
  induction gets with
  | nil => rfl
  | cons addr rest ih =>
    have hrest : ∀ a ∈ rest, resp a = .timeout ∨
        ∃ m, resp a = .reply m
          ∧ (∃ q qs, m.qd = q :: qs ∧ q.name = qdname) ∧ m.r = 2 :=
      fun a ha => h a (by simp [ha])
    rcases h addr (by simp) with ht | ⟨m, hm, ⟨q, qs, hqd, hname⟩, hr⟩
    · simp [request_remote, ht, ih hrest]
    · simp [request_remote, hm, hqd, hname, hr, ih hrest]

/-- Witness for C3 (amended): two timing-out addresses are both failed and
the exhaustion error is raised. -/
theorem request_remote_failover_w :
    request_remote false "host.example" respAllTimeout ["9.9.9.9", "8.8.8.8"]
      = (.error .invalidNameServer, ["9.9.9.9", "8.8.8.8"]) :=
  request_remote_failover "host.example" respAllTimeout ["9.9.9.9", "8.8.8.8"]
    (fun _ _ => .inl rfl)

/-- C4: on a protocol-level DNS parse error from the first candidate, the
`except DNSError:` branch evaluates the unbound local `e`, so instead of
logging and retrying the next candidate, `request_remote` raises
`UnboundLocalError` (and the fail log stays empty). -/
theorem request_remote_dns_error_unbound :
    request_remote false "host.example" respUnparsable ["10.0.0.1", "10.0.0.2"]
      = (.error (.unboundLocal "e"), []) := rfl

/-- C7: if the cache holds no CNAME for `domain`, the scan of
`cache.query(domain, qtype)` produced no hit, and `domain` ends with one
of the configured root domains, then `query_cache` reports a hit with
result code 3 (name error) and the authoritative flag set, so the resolve
loop stops without consulting a nameserver. -/
theorem query_cache_local_root_negative (env : CacheEnv) (qtype : Nat)
    (result : Msg) (domain : String)
    (h1 : env.cq domain [types.CNAME] = [])
    (h2 : (cacheScan env qtype result domain).2 = false)
    (h3 : env.rootdomains.any (fun root => pyEndsWith domain root) = true) :
    query_cache env qtype result domain
      = ({ (cacheScan env qtype result domain).1 with r := 3, aa := 1 }, true) := by
  simp [query_cache, h1, h2, h3]

/-- Witness for C7: an empty cache, root domain `lan`, query for
`host.lan`. -/
theorem query_cache_local_root_negative_w :
    envEmptyCache.cq "host.lan" [types.CNAME] = []
    ∧ (cacheScan envEmptyCache types.A {} "host.lan").2 = false
    ∧ envEmptyCache.rootdomains.any (fun root => pyEndsWith "host.lan" root) = true
    ∧ query_cache envEmptyCache types.A {} "host.lan"
        = ({ (cacheScan envEmptyCache types.A {} "host.lan").1 with r := 3, aa := 1 }, true) :=
  ⟨rfl, rfl, by decide,
   query_cache_local_root_negative envEmptyCache types.A {} "host.lan" rfl rfl (by decide)⟩

/-- C10 counterexample: for `a.lan` under root domain `lan`, a cached
positive-ttl CNAME answers a CNAME query through the early-return branch
of `query_cache`: the call reports a hit but leaves `aa = 0`, so the
authoritative flag is not set for every root-domain query. -/
theorem query_cache_cname_path_no_aa :
    pyEndsWith "a.lan" "lan" = true
    ∧ (query_cache envCnameLan types.CNAME {} "a.lan").2 = true
    ∧ (query_cache envCnameLan types.CNAME {} "a.lan").1.aa = 0 :=
  ⟨by decide, rfl, rfl⟩

/-- C10 (amended): whenever the cache holds no CNAME for `domain` (so the
scan path of `query_cache` is taken) and `domain` ends with a configured
root domain, `query_cache` sets `aa = 1` unconditionally — whether or not
the scan produced a genuine hit. -/
theorem query_cache_root_domain_aa (env : CacheEnv) (qtype : Nat)
    (result : Msg) (domain : String)
    (h1 : env.cq domain [types.CNAME] = [])
    (h3 : env.rootdomains.any (fun root => pyEndsWith domain root) = true) :
    (query_cache env qtype result domain).1.aa = 1 := by
  by_cases h2 : (cacheScan env qtype result domain).2 <;>
    simp [query_cache, h1, h2, h3]

/-- Witness for C10 (amended): a genuine cached A hit for `host.lan`
still gets `aa = 1`. -/
theorem query_cache_root_domain_aa_w :
    envHitA.cq "host.lan" [types.CNAME] = []
    ∧ envHitA.rootdomains.any (fun root => pyEndsWith "host.lan" root) = true
    ∧ (query_cache envHitA types.A {} "host.lan").2 = true
    ∧ (query_cache envHitA types.A {} "host.lan").1.aa = 1 :=
  ⟨by decide, by decide, by decide,
   query_cache_root_domain_aa envHitA types.A {} "host.lan" (by decide) (by decide)⟩

/-- C8: if after scanning the answer and authority sections no record
satisfies the query (`has_result` is false) and at least one CNAME target
was collected, `query_remote` redirects to the first CNAME target with no
explicit nameserver set (the defaults are used on the next iteration). -/
theorem query_remote_cname_redirect (recursive : Bool) (qtype : Nat)
    (result : Msg) (domain : String) (ir : Msg) (c : String) (cs : List String)
    (hc : (anScan qtype result ir.an).2.1 = c :: cs)
    (hr : (nsScan recursive qtype (anScan qtype result ir.an).1
            (anScan qtype result ir.an).2.2 ir.ns).2.1 = false) :
    (query_remote_classify recursive qtype result domain ir).2 = some (c, none) := by
  simp [query_remote_classify, hc, hr]

/-- Witness for C8: a response whose only answer is a CNAME record for an
A query redirects to its target. -/
theorem query_remote_cname_redirect_w :
    (anScan types.A {} irCname.an).2.1 = ["b.example"]
    ∧ (nsScan true types.A (anScan types.A {} irCname.an).1
        (anScan types.A {} irCname.an).2.2 irCname.ns).2.1 = false
    ∧ (query_remote_classify true types.A {} "a.example" irCname).2
        = some ("b.example", none) :=
  ⟨rfl, rfl,
   query_remote_cname_redirect true types.A {} "a.example" irCname "b.example" [] rfl rfl⟩

/-- Erasing one key leaves lookups of any other key unchanged. -/
theorem assocFind_erase_ne {α β : Type} [DecidableEq α] (m : List (α × β)) (k key : α)
    (h : ¬ key = k) : assocFind (assocErase m k) key = assocFind m key := by
  induction m with
  | nil => rfl
  | cons p rest ih =>
    have hk' : ¬ k = key := fun hc => h hc.symm
    by_cases hp : p.1 = k
    · simp [assocErase, assocFind, hp, hk', ih]
    · by_cases hpk : p.1 = key
      · simp [assocErase, assocFind, hp, hpk, h]
      · simp [assocErase, assocFind, hp, hpk, ih]

/-- Lookup after a dict assignment: the assigned key returns the new
value, any other key is unaffected. -/
theorem assocFind_upsert {α β : Type} [DecidableEq α] (m : List (α × β))
    (k key : α) (v : β) :
    assocFind (assocUpsert m k v) key = if key = k then some v else assocFind m key := by
  by_cases h : key = k
  · subst h; simp [assocUpsert, assocFind]
  · have hne : ¬ k = key := fun hc => h hc.symm
    simp [assocUpsert, assocFind, hne, h, assocFind_erase_ne m k key h]

/-- Generalized fold lemma for `nsipMapOf`: a successful lookup in the
accumulated dict comes from a record of the folded list or from the
initial dict. -/
theorem nsipMapOf_fold_find (irAr : List Rec) :
    ∀ (m : List ((String × Nat) × String)) (key : String × Nat) (ip : String),
      assocFind
        (irAr.foldl (fun m rec => assocUpsert m (rec.name, rec.qtype) rec.data) m)
        key = some ip →
      (∃ rec ∈ irAr, (rec.name, rec.qtype) = key ∧ rec.data = ip)
        ∨ assocFind m key = some ip := by
  induction irAr with
  | nil => intro m key ip hm; exact .inr hm
  | cons rec rest ih =>
    intro m key ip hm
    rcases ih _ key ip hm with hrest | hbase
    · rcases hrest with ⟨r, hr, hk, hd⟩
      exact .inl ⟨r, by simp [hr], hk, hd⟩
    · rw [assocFind_upsert] at hbase
      by_cases hk : key = (rec.name, rec.qtype)
      · refine .inl ⟨rec, by simp, hk.symm, ?_⟩
        simp [hk] at hbase
        exact hbase
      · exact .inr (by simpa [hk] using hbase)

/-- A successful lookup in `nsip_map` comes from an additional-section
record with exactly that `(name, qtype)` key and that data. -/
theorem assocFind_nsipMapOf (irAr : List Rec) (key : String × Nat) (ip : String)
    (h : assocFind (nsipMapOf irAr) key = some ip) :
    ∃ rec ∈ irAr, (rec.name, rec.qtype) = key ∧ rec.data = ip := by
  rcases nsipMapOf_fold_find irAr [] key ip h with hfound | hbase
  · exact hfound
  · cases hbase

/-- Every address collected into `nsips` is the data of an A-type record
of the additional section. -/
theorem mem_nsipsOf (irAr irNs : List Rec) (ip : String)
    (h : ip ∈ nsipsOf irAr irNs) :
    ∃ rec ∈ irAr, rec.qtype = types.A ∧ rec.data = ip := by
  have main : ∀ (ns : List Rec) (acc : List String),
      ip ∈ ns.foldl
        (fun acc rec =>
          match assocFind (nsipMapOf irAr) (hostOf rec, types.A) with
          | some ip' => acc ++ [ip']
          | none => acc) acc →
      ip ∈ acc ∨ ∃ host, assocFind (nsipMapOf irAr) (host, types.A) = some ip := by
    intro ns
    induction ns with
    | nil => intro acc hacc; exact .inl hacc
    | cons rec rest ih =>
      intro acc hacc
      rw [List.foldl_cons] at hacc
      rcases hfind : assocFind (nsipMapOf irAr) (hostOf rec, types.A) with _ | ip'
      · rw [hfind] at hacc
        rcases ih acc hacc with hin | hex
        · exact .inl hin
        · exact .inr hex
      · rw [hfind] at hacc
        rcases ih (acc ++ [ip']) hacc with hin | hex
        · rcases List.mem_append.1 hin with hin' | hip
          · exact .inl hin'
          · refine .inr ⟨hostOf rec, ?_⟩
            rw [hfind]
            simpa using congrArg some (List.mem_singleton.1 hip).symm
        · exact .inr hex
  rcases main irNs [] h with hin | ⟨host, hfind⟩
  · cases hin
  · rcases assocFind_nsipMapOf irAr (host, types.A) ip hfind with ⟨rec, hrec, hk, hd⟩
    exact ⟨rec, hrec, by rw [Prod.ext_iff] at hk; exact hk.2, hd⟩

/-- C9: whenever `query_remote` descends a delegation (returns the same
domain with an explicit nameserver set), every address in that set is the
data of a qtype-A record from the response's additional section — NS
hosts whose glue is not of type A contribute no address. -/
theorem query_remote_glue_ipv4_only (recursive : Bool) (qtype : Nat)
    (result : Msg) (domain : String) (ir : Msg) (m : Msg) (d : String)
    (nsips : List String)
    (h : query_remote_classify recursive qtype result domain ir
        = (m, some (d, some nsips))) :
    ∀ ip ∈ nsips, ∃ rec ∈ ir.ar, rec.qtype = types.A ∧ rec.data = ip := by
  intro ip hip
  have hn : nsips = nsipsOf ir.ar ir.ns := by
    simp only [query_remote_classify] at h
    split at h
    · simp at h
    · split at h
      · simp at h
      · split at h
        · simp at h
        · split at h
          · simp at h
          · simp only [Prod.mk.injEq, Option.some.injEq] at h
            exact h.2.2.symm
  exact mem_nsipsOf ir.ar ir.ns ip (hn ▸ hip)

/-- Erasing a key yields a sublist. -/
theorem assocErase_sublist {α β : Type} [DecidableEq α] (m : List (α × β)) (k : α) :
    (assocErase m k).Sublist m := by
  induction m with
  | nil => simp [assocErase]
  | cons p rest ih =>
    by_cases hp : p.1 = k
    · simp only [assocErase, if_pos hp]
      exact ih.cons p
    · simp only [assocErase, if_neg hp]
      exact ih.cons₂ p

/-- Members of the erased list were members with a different key. -/
theorem mem_assocErase {α β : Type} [DecidableEq α] {m : List (α × β)} {k : α}
    {p : α × β} (h : p ∈ assocErase m k) : p ∈ m ∧ ¬ p.1 = k := by
  induction m with
  | nil => cases h
  | cons q rest ih =>
    by_cases hq : q.1 = k
    · simp only [assocErase, if_pos hq] at h
      rcases ih h with ⟨h1, h2⟩
      exact ⟨List.mem_cons_of_mem q h1, h2⟩
    · simp only [assocErase, if_neg hq] at h
      rcases List.mem_cons.1 h with rfl | h'
      · exact ⟨List.mem_cons_self _ _, hq⟩
      · rcases ih h' with ⟨h1, h2⟩
        exact ⟨List.mem_cons_of_mem q h1, h2⟩

/-- Looking up the very key that was erased finds nothing. -/
theorem assocFind_erase_self {α β : Type} [DecidableEq α] (m : List (α × β)) (k : α) :
    assocFind (assocErase m k) k = none := by
  induction m with
  | nil => rfl
  | cons p rest ih =>
    by_cases hp : p.1 = k <;> simp [assocErase, assocFind, hp, ih]

/-- Transition-system invariant: it holds initially and is preserved by
every step, hence in every reachable state. -/
theorem invR_init : InvR {} :=
  ⟨List.nodup_nil, fun p hp => absurd hp (List.not_mem_nil p), fun _ _ => rfl⟩

/-- Each atomic step of the dedup layer preserves the invariant. -/
theorem invR_step (s : LedgerSt) (e : REvent) (h : InvR s) : InvR (rstep s e) := by
  obtain ⟨hnd, hent, hfresh⟩ := h
  cases e with
  | arrive c k =>
    rcases hf : assocFind s.ledger k with _ | t
    · simp only [rstep, hf]
      refine ⟨?_, ?_, ?_⟩
      · simp only [assocUpsert, List.map_cons, List.nodup_cons]
        constructor
        · intro hmem
          obtain ⟨p, hp, hfst⟩ := List.mem_map.1 hmem
          exact (mem_assocErase hp).2 hfst
        · exact hnd.sublist ((assocErase_sublist _ _).map Prod.fst)
      · intro p hp
        simp only [assocUpsert, List.mem_cons] at hp
        rcases hp with rfl | hp
        · exact ⟨by simp, hfresh _ le_rfl, Nat.lt_succ_self _⟩
        · obtain ⟨hpm, hpk⟩ := mem_assocErase hp
          obtain ⟨h1, h2, h3⟩ := hent p hpm
          refine ⟨?_, h2, Nat.lt_succ_of_lt h3⟩
          simp only [if_neg (Nat.ne_of_lt h3)]
          exact h1
      · intro u hu
        exact hfresh u (le_trans (Nat.le_succ _) hu)
    · simp only [rstep, hf]
      exact ⟨hnd, hent, hfresh⟩
  | complete t v =>
    by_cases hg : t < s.nextTask ∧ s.settledTask t = none
    · simp only [rstep, if_pos hg]
      refine ⟨?_, ?_, ?_⟩
      · exact hnd.sublist ((assocErase_sublist _ _).map Prod.fst)
      · intro p hp
        obtain ⟨hpm, hpk⟩ := mem_assocErase hp
        obtain ⟨h1, h2, h3⟩ := hent p hpm
        have hne : ¬ p.2 = t := fun hc => hpk (by rw [← h1, hc])
        exact ⟨h1, by simpa [hne] using h2, h3⟩
      · intro u hu
        have hne : ¬ u = t := fun hc => absurd (hc ▸ hu) (Nat.not_le_of_lt hg.1)
        simpa [hne] using hfresh u hu
    · simp only [rstep, if_neg hg]
      exact ⟨hnd, hent, hfresh⟩

/-- The invariant holds after any run from an invariant state. -/
theorem invR_runFrom (s : LedgerSt) (hs : InvR s) (es : List REvent) :
    InvR (runRFrom s es) := by
  induction es generalizing s with
  | nil => exact hs
  | cons e rest ih => exact ih (rstep s e) (invR_step s e hs)

/-- The invariant holds in every reachable state of the dedup layer. -/
theorem invR_run (es : List REvent) : InvR (runR es) :=
  invR_runFrom {} invR_init es

/-- A settled task never changes its value under further events. -/
theorem settled_stable (t : Nat) (v : RRes) (es : List REvent) :
    ∀ s : LedgerSt, s.settledTask t = some v →
      (runRFrom s es).settledTask t = some v := by
  induction es with
  | nil => intro s hs; exact hs
  | cons e rest ih =>
    intro s hs
    refine ih (rstep s e) ?_
    cases e with
    | arrive c k =>
      rcases hf : assocFind s.ledger k with _ | u <;> simp [rstep, hf, hs]
    | complete u w =>
      by_cases hg : u < s.nextTask ∧ s.settledTask u = none
      · have hne : ¬ t = u := by
          intro hc
          subst hc
          rw [hs] at hg
          exact absurd hg.2 (by simp)
        simp [rstep, if_pos hg, hne, hs]
      · simp [rstep, if_neg hg, hs]

/-- Arrivals for a key whose ledger entry is in flight change nothing but
the waiter list: the ledger and the transport counters stay as they are,
existing waiters remain, and every arriving caller attaches to the same
in-flight task. -/
theorem arrivals_join (k : DKey) (t : Nat) (cs : List Nat) :
    ∀ s : LedgerSt, assocFind s.ledger k = some t →
      (runRFrom s (cs.map (fun c => REvent.arrive c k))).ledger = s.ledger
      ∧ (∀ k', (runRFrom s (cs.map (fun c => REvent.arrive c k))).transport k'
          = s.transport k')
      ∧ (∀ w ∈ s.waiters, w ∈ (runRFrom s (cs.map (fun c => REvent.arrive c k))).waiters)
      ∧ (∀ c ∈ cs, (c, t) ∈ (runRFrom s (cs.map (fun c => REvent.arrive c k))).waiters) := by
  induction cs with
  | nil =>
    intro s _
    exact ⟨rfl, fun _ => rfl, fun w hw => hw, fun c hc => absurd hc (List.not_mem_nil c)⟩
  | cons c rest ih =>
    intro s hf
    have hstep : rstep s (.arrive c k) = { s with waiters := (c, t) :: s.waiters } := by
      simp [rstep, hf]
    have hf' : assocFind (rstep s (.arrive c k)).ledger k = some t := by
      rw [hstep]; exact hf
    obtain ⟨hl, htr, hmono, hall⟩ := ih (rstep s (.arrive c k)) hf'
    refine ⟨?_, ?_,
      fun w hw => hmono w (by rw [hstep]; exact List.mem_cons_of_mem _ hw), ?_⟩
    · show (runRFrom (rstep s (.arrive c k))
          (rest.map (fun c => REvent.arrive c k))).ledger = s.ledger
      rw [hl, hstep]
    · intro k'
      show (runRFrom (rstep s (.arrive c k))
          (rest.map (fun c => REvent.arrive c k))).transport k' = s.transport k'
      rw [htr k', hstep]
    · intro c' hc'
      rcases List.mem_cons.1 hc' with rfl | hc''
      · exact hmono (c', t) (by rw [hstep]; exact List.mem_cons_self _ _)
      · exact hall c' hc''

/-- A batch of concurrent arrivals for one key: all callers attach to a
single shared task, and the transport counter for the key rises by one if
no request was in flight, and by zero otherwise. -/
theorem dedup_arrivals (s : LedgerSt) (k : DKey) (c0 : Nat) (cs : List Nat) :
    ∃ t, (∀ c ∈ c0 :: cs,
        (c, t) ∈ (runRFrom s ((c0 :: cs).map (fun c => REvent.arrive c k))).waiters)
      ∧ (runRFrom s ((c0 :: cs).map (fun c => REvent.arrive c k))).transport k
          = s.transport k
            + (match assocFind s.ledger k with | some _ => 0 | none => 1) := by
  rcases hf : assocFind s.ledger k with _ | t
  · refine ⟨s.nextTask, ?_⟩
    have hstep : rstep s (.arrive c0 k) =
        { s with
          ledger := assocUpsert s.ledger k s.nextTask,
          nextTask := s.nextTask + 1,
          taskKey := fun t' => if t' = s.nextTask then k else s.taskKey t',
          transport := fun k' => if k' = k then s.transport k + 1 else s.transport k',
          waiters := (c0, s.nextTask) :: s.waiters } := by
      simp [rstep, hf]
    have hf' : assocFind (rstep s (.arrive c0 k)).ledger k = some s.nextTask := by
      rw [hstep]
      show assocFind (assocUpsert s.ledger k s.nextTask) k = some s.nextTask
      rw [assocFind_upsert]
      simp
    obtain ⟨hl, htr, hmono, hall⟩ := arrivals_join k s.nextTask cs _ hf'
    constructor
    · intro c hc
      rcases List.mem_cons.1 hc with rfl | hc'
      · exact hmono (c, s.nextTask) (by rw [hstep]; exact List.mem_cons_self _ _)
      · exact hall c hc'
    · simp only [hf]
      show (runRFrom (rstep s (.arrive c0 k))
          (cs.map (fun c => REvent.arrive c k))).transport k = s.transport k + 1
      rw [htr k, hstep]
      simp
  · obtain ⟨hl, htr, hmono, hall⟩ := arrivals_join k t (c0 :: cs) s hf
    refine ⟨t, hall, ?_⟩
    simp only [hf]
    simpa using htr k

/-- Witness for C9: a delegation with one A-glued NS host and one host
with only AAAA glue yields exactly the IPv4 glue address. -/
theorem query_remote_glue_ipv4_only_w :
    query_remote_classify true types.A {} "host.tld" irDeleg
      = ({}, some ("host.tld", some ["192.0.2.1"]))
    ∧ ∀ ip ∈ ["192.0.2.1"], ∃ rec ∈ irDeleg.ar, rec.qtype = types.A ∧ rec.data = ip :=
  ⟨rfl,
   query_remote_glue_ipv4_only true types.A {} "host.tld" irDeleg {} "host.tld"
     ["192.0.2.1"] rfl⟩

/-- C1: in every reachable state of the dedup layer, the ledger keys are
distinct and every ledger entry is an in-flight (unsettled) task — at
most one in-flight handle per key; a batch of concurrent `query` calls
for one key all attach to a single shared task, and the transport layer
(`_query`) is invoked exactly once for the batch if no request was in
flight and zero times otherwise; and a task's settled value never
changes, so all attached callers observe the same result or error. -/
theorem baseResolver_query_dedup (es : List REvent) (k : DKey) (c0 : Nat)
    (cs : List Nat) :
    ((runR es).ledger.map Prod.fst).Nodup
    ∧ (∀ p ∈ (runR es).ledger, (runR es).settledTask p.2 = none)
    ∧ (∃ t, (∀ c ∈ c0 :: cs,
          (c, t) ∈ (runRFrom (runR es)
            ((c0 :: cs).map (fun c => REvent.arrive c k))).waiters)
        ∧ (runRFrom (runR es) ((c0 :: cs).map (fun c => REvent.arrive c k))).transport k
            = (runR es).transport k
              + (match assocFind (runR es).ledger k with | some _ => 0 | none => 1))
    ∧ (∀ t v es2, (runR es).settledTask t = some v →
        (runRFrom (runR es) es2).settledTask t = some v) := by
  obtain ⟨hnd, hent, _⟩ := invR_run es
  exact ⟨hnd, fun p hp => (hent p hp).2.1, dedup_arrivals (runR es) k c0 cs,
    fun t v es2 hs => settled_stable t v es2 (runR es) hs⟩

/-- Witness for C1 at a concrete trace: the empty history followed by
three concurrent calls for `key0`. -/
theorem baseResolver_query_dedup_w :
    ((runR []).ledger.map Prod.fst).Nodup
    ∧ (∀ p ∈ (runR []).ledger, (runR []).settledTask p.2 = none)
    ∧ (∃ t, (∀ c ∈ 0 :: [1, 2],
          (c, t) ∈ (runRFrom (runR [])
            ((0 :: [1, 2]).map (fun c => REvent.arrive c key0))).waiters)
        ∧ (runRFrom (runR []) ((0 :: [1, 2]).map (fun c => REvent.arrive c key0))).transport
            key0
            = (runR []).transport key0
              + (match assocFind (runR []).ledger key0 with | some _ => 0 | none => 1))
    ∧ (∀ t v es2, (runR []).settledTask t = some v →
        (runRFrom (runR []) es2).settledTask t = some v) :=
  baseResolver_query_dedup [] key0 0 [1, 2]

/-- C6: completing an in-flight task removes the ledger entry for its key
(the done-callback's `pop`), and a subsequent call for the same key finds
no entry and starts a new underlying transport request (the counter for
the key rises by one). -/
theorem query_ledger_cleanup (s : LedgerSt) (t : Nat) (v : RRes) (c : Nat)
    (h1 : t < s.nextTask) (h2 : s.settledTask t = none) :
    assocFind (rstep s (.complete t v)).ledger (s.taskKey t) = none
    ∧ (rstep (rstep s (.complete t v)) (.arrive c (s.taskKey t))).transport (s.taskKey t)
        = (rstep s (.complete t v)).transport (s.taskKey t) + 1 := by
  have hstep : (rstep s (.complete t v)).ledger = assocErase s.ledger (s.taskKey t) := by
    simp [rstep, if_pos (And.intro h1 h2)]
  have hnone : assocFind (rstep s (.complete t v)).ledger (s.taskKey t) = none := by
    rw [hstep]
    exact assocFind_erase_self _ _
  refine ⟨hnone, ?_⟩
  set s' := rstep s (.complete t v) with hs'
  simp [rstep, hnone]

/-- Witness for C6: one call for `key0`, its task completing, then a
fresh call for the same key. -/
theorem query_ledger_cleanup_w :
    0 < (runR [REvent.arrive 0 key0]).nextTask
    ∧ (runR [REvent.arrive 0 key0]).settledTask 0 = none
    ∧ assocFind (rstep (runR [REvent.arrive 0 key0]) (.complete 0 7)).ledger
        ((runR [REvent.arrive 0 key0]).taskKey 0) = none
    ∧ (rstep (rstep (runR [REvent.arrive 0 key0]) (.complete 0 7))
          (.arrive 1 ((runR [REvent.arrive 0 key0]).taskKey 0))).transport
        ((runR [REvent.arrive 0 key0]).taskKey 0)
        = (rstep (runR [REvent.arrive 0 key0]) (.complete 0 7)).transport
            ((runR [REvent.arrive 0 key0]).taskKey 0) + 1 := by
  have h := query_ledger_cleanup (runR [REvent.arrive 0 key0]) 0 7 1 (by decide) rfl
  exact ⟨by decide, rfl, h.1, h.2⟩

end AsyncDns
